import Mathlib

/-!
Verification of `scripts/validate.py`, the registry validator of the
cmake-central-registry repository, against its design document.

The Python script is shallowly embedded: parsed JSON documents become the
`Json` inductive, the filesystem layout consumed by the validator becomes
the `VersionDir` / `PackageDir` / registry-list records, and each Python
function becomes a Lean function of the same name.  Python exceptions
(`TypeError`, `KeyError`, ...) are modelled with `Except String`, so a
function that would raise returns `Except.error` and one that returns a
list of error strings returns `Except.ok`.
-/

set_option linter.unusedVariables false

namespace CCR

/-- A parsed JSON document, as produced by Python's `json.load`.
An `obj` models a Python `dict` (keys are distinct), `arr` a `list`,
`num` a JSON integer. -/
inductive Json where
  | null : Json
  | bool : Bool → Json
  | num : Int → Json
  | str : String → Json
  | arr : List Json → Json
  | obj : List (String × Json) → Json

/-- Python's type name of a value, used in modelled exception texts. -/
def typeName : Json → String
  | Json.null => "NoneType"
  | Json.bool _ => "bool"
  | Json.num _ => "int"
  | Json.str _ => "str"
  | Json.arr _ => "list"
  | Json.obj _ => "dict"

/-- Key lookup in an object (a Python `dict` has distinct keys, so
first-match lookup is dict lookup). -/
def lookupJson : List (String × Json) → String → Option Json
  | [], _ => none
  | (k, v) :: rest, key => if k = key then some v else lookupJson rest key

/-- `needle` is a prefix of `hay` (on character lists). -/
def leadsList : List Char → List Char → Bool
  | [], _ => true
  | _ :: _, [] => false
  | a :: as, b :: bs => a = b && leadsList as bs

/-- `needle` occurs as a contiguous substring of `hay`: Python's
`needle in hay` for strings. -/
def occursIn (needle : List Char) : List Char → Bool
  | [] => leadsList needle []
  | c :: rest => leadsList needle (c :: rest) || occursIn needle rest

/-- Python `==` between an arbitrary value and the string `key`
(values of other types are simply unequal). -/
def jsonEqStr (key : String) : Json → Bool
  | Json.str s => s == key
  | _ => false

/-- Python `key in j` (`dict` key membership, `list` element equality,
`str` substring); non-iterable values raise `TypeError`. -/
def jsonContains (j : Json) (key : String) : Except String Bool :=
  match j with
  | Json.obj kvs => Except.ok (lookupJson kvs key).isSome
  | Json.arr xs => Except.ok (xs.any (jsonEqStr key))
  | Json.str s => Except.ok (occursIn key.data s.data)
  | _ => Except.error ("TypeError: argument of type '" ++ typeName j ++ "' is not iterable")

/-- Python `j[key]` with a string key. -/
def jsonGet (j : Json) (key : String) : Except String Json :=
  match j with
  | Json.obj kvs =>
    match lookupJson kvs key with
    | some v => Except.ok v
    | none => Except.error ("KeyError: '" ++ key ++ "'")
  | Json.arr _ => Except.error "TypeError: list indices must be integers or slices, not str"
  | Json.str _ => Except.error "TypeError: string indices must be integers"
  | _ => Except.error ("TypeError: '" ++ typeName j ++ "' object is not subscriptable")

/-- Argument check of `re.Pattern.match`: a non-`str` argument raises. -/
def jsonAsStr : Json → Except String String
  | Json.str s => Except.ok s
  | j => Except.error ("TypeError: expected string or bytes-like object, got '" ++ typeName j ++ "'")

/-- Python `len(j)`: sized values only. -/
def jsonLen : Json → Except String Nat
  | Json.str s => Except.ok s.length
  | Json.arr xs => Except.ok xs.length
  | Json.obj kvs => Except.ok kvs.length
  | j => Except.error ("TypeError: object of type '" ++ typeName j ++ "' has no len()")

/-- Python truthiness of a parsed JSON value. -/
def pyTruthy : Json → Bool
  | Json.null => false
  | Json.bool b => b
  | Json.num n => n != 0
  | Json.str s => !(s == "")
  | Json.arr xs => !xs.isEmpty
  | Json.obj kvs => !kvs.isEmpty

/-- Python iteration over a parsed JSON value (`dict` yields its keys,
`str` yields one-character strings); non-iterables raise. -/
def jsonIter : Json → Except String (List Json)
  | Json.arr xs => Except.ok xs
  | Json.obj kvs => Except.ok (kvs.map (fun kv => Json.str kv.1))
  | Json.str s => Except.ok (s.data.map (fun c => Json.str (String.mk [c])))
  | j => Except.error ("TypeError: argument of type '" ++ typeName j ++ "' is not iterable")

/-- Hashability, needed for membership tests against a Python `set`. -/
def hashableJson : Json → Bool
  | Json.arr _ => false
  | Json.obj _ => false
  | _ => true

mutual

/-- Python `repr()` of a value (string quote escaping is not modelled,
the registry documents carry no quotes inside values). -/
def pyRepr : Json → String
  | Json.null => "None"
  | Json.bool true => "True"
  | Json.bool false => "False"
  | Json.num n => toString n
  | Json.str s => "'" ++ s ++ "'"
  | Json.arr xs => "[" ++ pyReprArr xs ++ "]"
  | Json.obj kvs => "\x7b" ++ pyReprObj kvs ++ "\x7d"

def pyReprArr : List Json → String
  | [] => ""
  | [x] => pyRepr x
  | x :: y :: rest => pyRepr x ++ ", " ++ pyReprArr (y :: rest)

def pyReprObj : List (String × Json) → String
  | [] => ""
  | [(k, v)] => "'" ++ k ++ "': " ++ pyRepr v
  | (k, v) :: p :: rest => "'" ++ k ++ "': " ++ pyRepr v ++ ", " ++ pyReprObj (p :: rest)

end

/-- f-string rendering (`str()`): top-level strings print unquoted. -/
def pyStr : Json → String
  | Json.str s => s
  | j => pyRepr j

/-! ## Module-level constants of `validate.py` -/

def REQUIRED_METADATA_FIELDS : List String :=
  ["name", "description", "homepage", "license", "repository", "default_version",
   "targets", "maintainers"]

def REQUIRED_SOURCE_FIELDS : List String := ["git_tag", "tested"]

def VALID_REPO_TYPES : List String := ["github", "gitlab", "url"]

/-- The `VALID_LICENSES` set (membership is all that is used of it). -/
def VALID_LICENSES : List String :=
  ["MIT", "Apache-2.0", "BSD-2-Clause", "BSD-3-Clause", "BSL-1.0",
   "MPL-2.0", "LGPL-2.1", "LGPL-3.0", "GPL-2.0", "GPL-3.0",
   "Unlicense", "ISC", "Zlib", "CC0-1.0"]

/-- `c` is an ASCII lowercase letter. -/
def lowerAlpha (c : Char) : Bool := 'a' ≤ c && c ≤ 'z'

/-- A character allowed after the first one by `NAME_PATTERN`. -/
def nameBodyChar (c : Char) : Bool := lowerAlpha c || ('0' ≤ c && c ≤ '9') || c = '_'

/-- The character list fully matches `[a-z][a-z0-9_]*`. -/
def nameCore : List Char → Bool
  | [] => false
  | c :: rest => lowerAlpha c && rest.all nameBodyChar

/-- `NAME_PATTERN.match(s)` succeeds: `re` anchors `^...$` at the end of
the string or just before one final newline. -/
def namePatternMatch (s : String) : Bool :=
  nameCore s.data ||
    (match s.data.getLast? with
     | some c => c = '\n' && nameCore s.data.dropLast
     | none => false)

/-- Python `value in versions_found` for a list of strings: equality
holds only for an equal string. -/
def jsonInStrList (j : Json) (l : List String) : Bool :=
  match j with
  | Json.str s => l.contains s
  | _ => false

/-! ## The error-message texts emitted by `validate.py` -/

def missingFieldMsg (f : String) : String :=
  "metadata.json missing required field: " ++ f

def invalidNameMsg (s : String) : String :=
  "Invalid name '" ++
    (s ++ "': must be lowercase alphanumeric + underscore, starting with letter")

def mismatchMsg (d s : String) : String :=
  "Directory name '" ++ (d ++ ("' doesn't match package name '" ++ (s ++ "'")))

def descriptionMsg : String := "Description exceeds 200 characters"

def licenseMsg (l : String) : String :=
  "Unknown license '" ++ (l ++ "'. Use SPDX identifier.")

def repoFieldsMsg : String := "Repository must have 'type' and 'url' fields"

def repoTypeMsg (t : String) : String := "Invalid repository type: " ++ t

def targetsMsg : String := "At least one target must be specified"

def maintainersMsg : String := "At least one maintainer is required"

def depMsg : String := "Dependency missing 'name' field"

def sourceMissingMsg (v f : String) : String :=
  "Version " ++ (v ++ (": source.json missing required field: " ++ f))

def cmakeMsg (v : String) : String :=
  "Version " ++ (v ++ ": cmake_options must be an object")

def versionMissingSourceMsg (v : String) : String :=
  "Version " ++ (v ++ ": missing source.json")

def versionInvalidJsonMsg (v e : String) : String :=
  "Version " ++ (v ++ (": invalid JSON in source.json: " ++ e))

def missingMetadataMsg (p : String) : String :=
  "Missing metadata.json in " ++ p

def invalidMetadataJsonMsg (e : String) : String :=
  "Invalid JSON in metadata.json: " ++ e

def versionsRequiredMsg : String := "At least one version directory is required"

def defaultVersionMsg (dv : String) : String :=
  "default_version '" ++ (dv ++ "' not found in version directories")

/-! ## Filesystem model

A version sub-directory carries its name and the state of its
`source.json` (`none`: the file is absent; `some (Except.error e)`: the
file exists but `json.load` raises `JSONDecodeError` with text `e`;
`some (Except.ok j)`: it parses to `j`).  A package directory carries
its base name, the state of its `metadata.json`, and its immediate
sub-directories (the result of `get_version_dirs`). -/

structure VersionDir where
  name : String
  sourceJson : Option (Except String Json)

structure PackageDir where
  name : String
  metadataJson : Option (Except String Json)
  versionDirs : List VersionDir

/-! ## The validators (`validate.py` lines 38-175) -/

/-- The required-field loop of `validate_metadata` (lines 43-45),
over a given field list. -/
def missingFieldErrors (m : Json) : List String → Except String (List String)
  | [] => Except.ok []
  | f :: rest =>
    (jsonContains m f).bind fun c =>
    (missingFieldErrors m rest).bind fun tail =>
    Except.ok (if c then tail else missingFieldMsg f :: tail)

/-- Lines 51-56: fetch `name`, match it against `NAME_PATTERN`
(raising on a non-string) and compare it with the directory name. -/
def nameChecks (d : String) (m : Json) : Except String (List String) :=
  (jsonGet m "name").bind fun nameVal =>
  (jsonAsStr nameVal).bind fun name =>
  Except.ok ((if namePatternMatch name then [] else [invalidNameMsg name]) ++
             (if d = name then [] else [mismatchMsg d name]))

/-- Lines 59-60: `len(metadata["description"]) > 200`. -/
def descriptionCheck (m : Json) : Except String (List String) :=
  (jsonGet m "description").bind fun dsc =>
  (jsonLen dsc).bind fun n =>
  Except.ok (if 200 < n then [descriptionMsg] else [])

/-- Lines 63-64: membership in the `VALID_LICENSES` set (an unhashable
value raises inside the set lookup). -/
def licenseCheck (m : Json) : Except String (List String) :=
  (jsonGet m "license").bind fun lic =>
  if hashableJson lic then
    Except.ok (if jsonInStrList lic VALID_LICENSES then [] else [licenseMsg (pyStr lic)])
  else
    Except.error ("TypeError: unhashable type: '" ++ typeName lic ++ "'")

/-- Lines 67-71: `type`/`url` presence, `elif` the repository type. -/
def repositoryCheck (m : Json) : Except String (List String) :=
  (jsonGet m "repository").bind fun repo =>
  (jsonContains repo "type").bind fun hasType =>
  (if hasType then (jsonContains repo "url").bind fun hasUrl => Except.ok (!hasUrl)
   else Except.ok true).bind fun missing =>
  if missing then Except.ok [repoFieldsMsg]
  else
    (jsonGet repo "type").bind fun t =>
    Except.ok (if jsonInStrList t VALID_REPO_TYPES then [] else [repoTypeMsg (pyStr t)])

/-- Lines 74-75: `if not metadata["targets"]`. -/
def targetsCheck (m : Json) : Except String (List String) :=
  (jsonGet m "targets").bind fun t =>
  Except.ok (if pyTruthy t then [] else [targetsMsg])

/-- Lines 78-79: `if not metadata["maintainers"]`. -/
def maintainersCheck (m : Json) : Except String (List String) :=
  (jsonGet m "maintainers").bind fun t =>
  Except.ok (if pyTruthy t then [] else [maintainersMsg])

/-- The loop body of lines 83-85 over the iterated dependency items. -/
def depErrors : List Json → Except String (List String)
  | [] => Except.ok []
  | dep :: rest =>
    (jsonContains dep "name").bind fun c =>
    (depErrors rest).bind fun tail =>
    Except.ok (if c then tail else depMsg :: tail)

/-- Lines 82-85: `dependencies`, when present, is iterated and each
entry must contain a `name` key. -/
def dependenciesCheck (m : Json) : Except String (List String) :=
  (jsonContains m "dependencies").bind fun c =>
  if c then
    (jsonGet m "dependencies").bind fun deps =>
    (jsonIter deps).bind fun items =>
    depErrors items
  else Except.ok []

/-- `validate_metadata` (lines 38-87): required fields first, early
return when any is missing, then the field-level checks in source
order, accumulating all their errors. -/
def validate_metadata (d : String) (m : Json) : Except String (List String) :=
  (missingFieldErrors m REQUIRED_METADATA_FIELDS).bind fun errors =>
  if errors.isEmpty then
    (nameChecks d m).bind fun e1 =>
    (descriptionCheck m).bind fun e2 =>
    (licenseCheck m).bind fun e3 =>
    (repositoryCheck m).bind fun e4 =>
    (targetsCheck m).bind fun e5 =>
    (maintainersCheck m).bind fun e6 =>
    (dependenciesCheck m).bind fun e7 =>
    Except.ok (errors ++ e1 ++ e2 ++ e3 ++ e4 ++ e5 ++ e6 ++ e7)
  else Except.ok errors

/-- The required-field loop of `validate_source` (lines 94-96). -/
def missingSourceFieldErrors (v : String) (source : Json) :
    List String → Except String (List String)
  | [] => Except.ok []
  | f :: rest =>
    (jsonContains source f).bind fun c =>
    (missingSourceFieldErrors v source rest).bind fun tail =>
    Except.ok (if c then tail else sourceMissingMsg v f :: tail)

/-- `validate_source` (lines 90-102). -/
def validate_source (version : String) (source : Json) : Except String (List String) :=
  (missingSourceFieldErrors version source REQUIRED_SOURCE_FIELDS).bind fun base =>
  (jsonContains source "cmake_options").bind fun c =>
  if c then
    (jsonGet source "cmake_options").bind fun v =>
    Except.ok (base ++ (match v with | Json.obj _ => [] | _ => [cmakeMsg version]))
  else Except.ok base

/-- The per-version body of the loop at lines 135-151: missing
`source.json`, unparseable `source.json`, or `validate_source`. -/
def versionEntryErrors (vd : VersionDir) : Except String (List String) :=
  match vd.sourceJson with
  | none => Except.ok [versionMissingSourceMsg vd.name]
  | some (Except.error e) => Except.ok [versionInvalidJsonMsg vd.name e]
  | some (Except.ok src) => validate_source vd.name src

/-- The loop at lines 134-151: every directory name is appended to
`versions_found` before its `source.json` is examined. -/
def processVersions : List VersionDir → Except String (List String × List String)
  | [] => Except.ok ([], [])
  | vd :: rest =>
    (versionEntryErrors vd).bind fun head =>
    (processVersions rest).bind fun fv =>
    Except.ok (vd.name :: fv.1, head ++ fv.2)

/-- Lines 154-156: the `default_version` cross-check against
`versions_found`. -/
def defaultVersionCheck (metadata : Json) (found : List String) :
    Except String (List String) :=
  (jsonContains metadata "default_version").bind fun c =>
  if c then
    (jsonGet metadata "default_version").bind fun dv =>
    Except.ok (if jsonInStrList dv found then [] else [defaultVersionMsg (pyStr dv)])
  else Except.ok []

/-- `validate_package` (lines 110-158). -/
def validate_package (pkg : PackageDir) : Except String (List String) :=
  match pkg.metadataJson with
  | none => Except.ok [missingMetadataMsg pkg.name]
  | some (Except.error e) => Except.ok [invalidMetadataJsonMsg e]
  | some (Except.ok metadata) =>
    (validate_metadata pkg.name metadata).bind fun merrs =>
    if pkg.versionDirs.isEmpty then
      Except.ok (merrs ++ [versionsRequiredMsg])
    else
      (processVersions pkg.versionDirs).bind fun fv =>
      (defaultVersionCheck metadata fv.1).bind fun derrs =>
      Except.ok (merrs ++ fv.2 ++ derrs)

/-- `validate_all` (lines 161-175) over the registry's immediate
sub-directories: packages with an empty error list are omitted. -/
def validate_all : List PackageDir → Except String (List (String × List String))
  | [] => Except.ok []
  | pkg :: rest =>
    (validate_package pkg).bind fun errs =>
    (validate_all rest).bind fun tail =>
    Except.ok (if errs.isEmpty then tail else (pkg.name, errs) :: tail)

/-! ## The `--all` branch of `main` (lines 183-199) -/

/-- Lexicographic code-point order on character lists (Python string
`<=`). -/
def charListLe : List Char → List Char → Bool
  | [], _ => true
  | _ :: _, [] => false
  | a :: as, b :: bs =>
    if a.toNat < b.toNat then true
    else if b.toNat < a.toNat then false
    else charListLe as bs

/-- Python `a <= b` on strings. -/
def strLe (a b : String) : Bool := charListLe a.data b.data

/-- Insert one result into a name-sorted result list. -/
def insertSorted (p : String × List String) :
    List (String × List String) → List (String × List String)
  | [] => [p]
  | q :: rest => if strLe p.1 q.1 then p :: q :: rest else q :: insertSorted p rest

/-- `sorted(results.items())`: sort by package name (keys are the sort
key since dictionary keys are distinct). -/
def sortResults : List (String × List String) → List (String × List String)
  | [] => []
  | p :: rest => insertSorted p (sortResults rest)

/-- The itemized per-package lines of the failure report (lines 191-194). -/
def reportLines : List (String × List String) → List String
  | [] => []
  | (pkg, errors) :: rest =>
    ("  " ++ pkg ++ ":") :: errors.map (fun e => "    - " ++ e) ++ reportLines rest

/-- The `--all` branch of `main` (lines 183-199), returning the printed
lines and the process exit code. -/
def mainAll (pkgs : List PackageDir) : Except String (List String × Nat) :=
  (validate_all pkgs).bind fun results =>
  if results.isEmpty then
    Except.ok (["✅ All " ++ toString pkgs.length ++ " packages valid!"], 0)
  else
    Except.ok ("❌ Validation errors found:\n" ::
      (reportLines (sortResults results) ++
       ["\n" ++ toString (pkgs.length - results.length) ++ "/" ++
        toString pkgs.length ++ " packages valid"]), 1)

/-- The first two characters of a string, a cheap discriminator between
the message families of `validate.py`. -/
def tag2 (s : String) : List Char := s.data.take 2

/-! ## The conditions of the claimed full-schema property

These predicates transcribe, clause by clause, the conditions under
which the design document asserts that the validator accepts a package
(§8, first property).  They are stated over the embedding's data model
so the property can be evaluated on concrete packages. -/

/-- All eight required metadata fields are present. -/
def condRequired (kvs : List (String × Json)) : Bool :=
  REQUIRED_METADATA_FIELDS.all (fun f => (lookupJson kvs f).isSome)

/-- `name` is a string matching the identifier pattern and equal to the
package directory's base name. -/
def condName (dirName : String) (kvs : List (String × Json)) : Bool :=
  match lookupJson kvs "name" with
  | some (Json.str s) => namePatternMatch s && dirName == s
  | _ => false

/-- `license` is a string in the allow-list. -/
def condLicense (kvs : List (String × Json)) : Bool :=
  match lookupJson kvs "license" with
  | some (Json.str l) => VALID_LICENSES.contains l
  | _ => false

/-- `repository` is an object containing `type` (a string in the valid
set) and `url`. -/
def condRepository (kvs : List (String × Json)) : Bool :=
  match lookupJson kvs "repository" with
  | some (Json.obj rkvs) =>
    (match lookupJson rkvs "type" with
     | some (Json.str t) => VALID_REPO_TYPES.contains t
     | _ => false) && (lookupJson rkvs "url").isSome
  | _ => false

/-- `targets` is a non-empty list. -/
def condTargets (kvs : List (String × Json)) : Bool :=
  match lookupJson kvs "targets" with
  | some (Json.arr xs) => !xs.isEmpty
  | _ => false

/-- `maintainers` is a non-empty list. -/
def condMaintainers (kvs : List (String × Json)) : Bool :=
  match lookupJson kvs "maintainers" with
  | some (Json.arr xs) => !xs.isEmpty
  | _ => false

/-- `dependencies`, when present, is a list of objects each containing
a `name` key. -/
def condDeps (kvs : List (String × Json)) : Bool :=
  match lookupJson kvs "dependencies" with
  | none => true
  | some (Json.arr items) =>
    items.all (fun it =>
      match it with
      | Json.obj ikvs => (lookupJson ikvs "name").isSome
      | _ => false)
  | some _ => false

/-- `cmake_options`, if present, is an object. -/
def cmakeOptionOk (skvs : List (String × Json)) : Bool :=
  match lookupJson skvs "cmake_options" with
  | none => true
  | some (Json.obj _) => true
  | some _ => false

/-- One version directory: `source.json` parses to an object with
`git_tag` and `tested` present and `cmake_options`, if present, an
object. -/
def versionCond (vd : VersionDir) : Bool :=
  match vd.sourceJson with
  | some (Except.ok (Json.obj skvs)) =>
    (lookupJson skvs "git_tag").isSome && (lookupJson skvs "tested").isSome &&
      cmakeOptionOk skvs
  | _ => false

/-- `default_version` is a string naming one of the version
sub-directories. -/
def condDefault (pkg : PackageDir) (kvs : List (String × Json)) : Bool :=
  match lookupJson kvs "default_version" with
  | some (Json.str dv) => (pkg.versionDirs.map VersionDir.name).contains dv
  | _ => false

/-- The claimed full-schema conditions of a valid package, exactly as
the claim enumerates them (note: no condition on the description's
length). -/
def claimC1Conds (pkg : PackageDir) : Bool :=
  match pkg.metadataJson with
  | some (Except.ok (Json.obj kvs)) =>
    condRequired kvs && condName pkg.name kvs && condLicense kvs &&
      condRepository kvs && condTargets kvs && condMaintainers kvs &&
      condDeps kvs && (!pkg.versionDirs.isEmpty) &&
      pkg.versionDirs.all versionCond && condDefault pkg kvs
  | _ => false

/-- The description is a string of at most 200 characters (the schema
constraint the claimed condition list leaves out). -/
def condDescription (pkg : PackageDir) : Bool :=
  match pkg.metadataJson with
  | some (Except.ok (Json.obj kvs)) =>
    match lookupJson kvs "description" with
    | some (Json.str dsc) => decide (dsc.length ≤ 200)
    | _ => false
  | _ => false

/-! ## Concrete packages used as witnesses and counterexamples -/

/-- The key-value pairs of a fully valid metadata document for a
package named `foo` with default version `1.0.0`. -/
def fooMetaKvs : List (String × Json) :=
  [("name", Json.str "foo"),
   ("description", Json.str "A package"),
   ("homepage", Json.str "https://example.com"),
   ("license", Json.str "MIT"),
   ("repository", Json.obj [("type", Json.str "github"), ("url", Json.str "https://example.com/foo")]),
   ("default_version", Json.str "1.0.0"),
   ("targets", Json.arr [Json.str "foo::foo"]),
   ("maintainers", Json.arr [Json.obj [("name", Json.str "m")]])]

/-- A fully valid metadata document. -/
def fooMeta : Json := Json.obj fooMetaKvs

/-- A conformant `source.json` document. -/
def fooSource : Json := Json.obj
  [("git_tag", Json.str "v1.0.0"), ("tested", Json.bool true)]

/-- A conformant version directory named `1.0.0`. -/
def fooVersion : VersionDir :=
  { name := "1.0.0", sourceJson := some (Except.ok fooSource) }

/-- A fully valid package. -/
def fooPkg : PackageDir :=
  { name := "foo", metadataJson := some (Except.ok fooMeta), versionDirs := [fooVersion] }

/-- A 201-character description. -/
def longDescription : String :=
  String.mk (List.replicate 201 'x')

/-- Like `fooMeta` but with a 201-character description: it meets every
condition the claimed full-schema property lists. -/
def fooMetaLongDescr : Json := Json.obj
  [("name", Json.str "foo"),
   ("description", Json.str longDescription),
   ("homepage", Json.str "https://example.com"),
   ("license", Json.str "MIT"),
   ("repository", Json.obj [("type", Json.str "github"), ("url", Json.str "https://example.com/foo")]),
   ("default_version", Json.str "1.0.0"),
   ("targets", Json.arr [Json.str "foo::foo"]),
   ("maintainers", Json.arr [Json.obj [("name", Json.str "m")]])]

/-- The package refuting the claimed full-schema property. -/
def pkgLongDescr : PackageDir :=
  { name := "foo", metadataJson := some (Except.ok fooMetaLongDescr),
    versionDirs := [fooVersion] }

/-- A package whose only defect is that the `1.0.0` version directory
has no `source.json`; `default_version` is `"1.0.0"`. -/
def pkgMissingSource : PackageDir :=
  { name := "foo", metadataJson := some (Except.ok fooMeta),
    versionDirs := [{ name := "1.0.0", sourceJson := none }] }

/-- A package directory `bar` whose metadata declares the name `foo`
but is missing the seven other required fields. -/
def pkgBarMissingFields : PackageDir :=
  { name := "bar", metadataJson := some (Except.ok (Json.obj [("name", Json.str "foo")])),
    versionDirs := [] }

/-- A package directory `bar` with fully valid metadata declaring the
name `foo`. -/
def pkgBarNamedFoo : PackageDir :=
  { name := "bar", metadataJson := some (Except.ok fooMeta), versionDirs := [fooVersion] }

/-- Metadata whose `repository` lacks `url` and carries an invalid
`type`. -/
def metaRepoNoUrl : Json := Json.obj
  [("name", Json.str "foo"),
   ("description", Json.str "A package"),
   ("homepage", Json.str "https://example.com"),
   ("license", Json.str "MIT"),
   ("repository", Json.obj [("type", Json.str "bitbucket")]),
   ("default_version", Json.str "1.0.0"),
   ("targets", Json.arr [Json.str "foo::foo"]),
   ("maintainers", Json.arr [Json.obj [("name", Json.str "m")]])]

/-- Key-value pairs of metadata whose `repository` has both keys but an
invalid `type`. -/
def metaRepoBadTypeKvs : List (String × Json) :=
  [("name", Json.str "foo"),
   ("description", Json.str "A package"),
   ("homepage", Json.str "https://example.com"),
   ("license", Json.str "MIT"),
   ("repository", Json.obj [("type", Json.str "bitbucket"), ("url", Json.str "https://example.com/foo")]),
   ("default_version", Json.str "1.0.0"),
   ("targets", Json.arr [Json.str "foo::foo"]),
   ("maintainers", Json.arr [Json.obj [("name", Json.str "m")]])]

/-- Metadata whose `repository` has both keys but an invalid `type`. -/
def metaRepoBadType : Json := Json.obj metaRepoBadTypeKvs

/-- A package whose `metadata.json` does not exist. -/
def pkgNoMetadata : PackageDir :=
  { name := "nometa", metadataJson := none, versionDirs := [] }

/-- A package whose `metadata.json` fails to parse. -/
def pkgBadJson : PackageDir :=
  { name := "badjson",
    metadataJson := some (Except.error "Expecting value: line 1 column 1 (char 0)"),
    versionDirs := [] }

/-- A valid-metadata package with no version sub-directories. -/
def pkgNoVersions : PackageDir :=
  { name := "foo", metadataJson := some (Except.ok fooMeta), versionDirs := [] }

/-- A package whose `metadata.json` holds the JSON document `5`: it
parses, but is not a container. -/
def pkgNumberMetadata : PackageDir :=
  { name := "p", metadataJson := some (Except.ok (Json.num 5)), versionDirs := [] }

/-! ## Basic lemmas -/

@[simp]
theorem exc_bind_ok {α β : Type} (a : α) (f : α → Except String β) :
    (Except.ok a : Except String α).bind f = f a := rfl

@[simp]
theorem exc_bind_error {α β : Type} (e : String) (f : α → Except String β) :
    (Except.error e : Except String α).bind f = (Except.error e : Except String β) := rfl

theorem data_append (a b : String) : (a ++ b).data = a.data ++ b.data := by
  cases a; cases b; rfl

theorem ne_of_tag2 {a b : String} (h : tag2 a ≠ tag2 b) : a ≠ b := by
  intro he
  exact h (he ▸ rfl)

theorem tag2_append_left {a : String} (b : String) (h : 2 ≤ a.data.length) :
    tag2 (a ++ b) = tag2 a := by
  simp only [tag2, data_append]
  exact List.take_append_of_le_length h

theorem tag2_invalidNameMsg (s : String) : tag2 (invalidNameMsg s) = ['I', 'n'] := by
  rw [invalidNameMsg, tag2_append_left _ (by decide)]; rfl

theorem tag2_mismatchMsg (d s : String) : tag2 (mismatchMsg d s) = ['D', 'i'] := by
  rw [mismatchMsg, tag2_append_left _ (by decide)]; rfl

theorem tag2_licenseMsg (l : String) : tag2 (licenseMsg l) = ['U', 'n'] := by
  rw [licenseMsg, tag2_append_left _ (by decide)]; rfl

theorem tag2_repoTypeMsg (t : String) : tag2 (repoTypeMsg t) = ['I', 'n'] := by
  rw [repoTypeMsg, tag2_append_left _ (by decide)]; rfl

theorem tag2_missingFieldMsg (f : String) : tag2 (missingFieldMsg f) = ['m', 'e'] := by
  rw [missingFieldMsg, tag2_append_left _ (by decide)]; rfl

theorem tag2_sourceMissingMsg (v f : String) : tag2 (sourceMissingMsg v f) = ['V', 'e'] := by
  rw [sourceMissingMsg, tag2_append_left _ (by decide)]; rfl

theorem tag2_cmakeMsg (v : String) : tag2 (cmakeMsg v) = ['V', 'e'] := by
  rw [cmakeMsg, tag2_append_left _ (by decide)]; rfl

theorem tag2_versionMissingSourceMsg (v : String) :
    tag2 (versionMissingSourceMsg v) = ['V', 'e'] := by
  rw [versionMissingSourceMsg, tag2_append_left _ (by decide)]; rfl

theorem tag2_versionInvalidJsonMsg (v e : String) :
    tag2 (versionInvalidJsonMsg v e) = ['V', 'e'] := by
  rw [versionInvalidJsonMsg, tag2_append_left _ (by decide)]; rfl

theorem tag2_defaultVersionMsg (dv : String) : tag2 (defaultVersionMsg dv) = ['d', 'e'] := by
  rw [defaultVersionMsg, tag2_append_left _ (by decide)]; rfl

/-! Substring facts for `occursIn` (used to show version-prefixed
messages mention the version identifier). -/

theorem leadsList_self_append (l s : List Char) : leadsList l (l ++ s) = true := by
  induction l with
  | nil => rfl
  | cons c rest ih => simp [leadsList, ih]

theorem occursIn_nil_needle (hay : List Char) : occursIn [] hay = true := by
  cases hay <;> simp [occursIn, leadsList]

theorem occursIn_self_append (l s : List Char) : occursIn l (l ++ s) = true := by
  cases l with
  | nil => exact occursIn_nil_needle s
  | cons c rest =>
    simp only [occursIn, Bool.or_eq_true]
    left
    simpa using leadsList_self_append (c :: rest) s

theorem occursIn_append_left (p n s : List Char) : occursIn n (p ++ (n ++ s)) = true := by
  induction p with
  | nil => simpa using occursIn_self_append n s
  | cons c rest ih =>
    cases n with
    | nil => exact occursIn_nil_needle _
    | cons a as =>
      simp only [List.cons_append, occursIn, Bool.or_eq_true]
      right
      simpa using ih

/-! ## Characterizations of the loops -/

theorem missingFieldErrors_obj (kvs : List (String × Json)) (fields : List String) :
    missingFieldErrors (Json.obj kvs) fields =
      Except.ok ((fields.filter (fun f => (lookupJson kvs f).isNone)).map missingFieldMsg) := by
  induction fields with
  | nil => rfl
  | cons f rest ih =>
    simp only [missingFieldErrors, jsonContains, exc_bind_ok, ih, List.filter_cons]
    cases h : lookupJson kvs f <;> simp [h]

theorem missingFieldErrors_obj_all_present (kvs : List (String × Json))
    (fields : List String) (h : ∀ f ∈ fields, (lookupJson kvs f).isSome) :
    missingFieldErrors (Json.obj kvs) fields = Except.ok [] := by
  rw [missingFieldErrors_obj]
  have : fields.filter (fun f => (lookupJson kvs f).isNone) = [] := by
    rw [List.filter_eq_nil_iff]
    intro f hf
    simpa [Option.isNone_iff_eq_none, ← Option.ne_none_iff_isSome] using h f hf
  rw [this]
  rfl

theorem missingSourceFieldErrors_obj (v : String) (kvs : List (String × Json))
    (fields : List String) :
    missingSourceFieldErrors v (Json.obj kvs) fields =
      Except.ok ((fields.filter (fun f => (lookupJson kvs f).isNone)).map (sourceMissingMsg v)) := by
  induction fields with
  | nil => rfl
  | cons f rest ih =>
    simp only [missingSourceFieldErrors, jsonContains, exc_bind_ok, ih, List.filter_cons]
    cases h : lookupJson kvs f <;> simp [h]

/-- What `validate_source` returns on any parsed JSON object. -/
theorem validate_source_obj (v : String) (kvs : List (String × Json)) :
    validate_source v (Json.obj kvs) =
      Except.ok (((REQUIRED_SOURCE_FIELDS.filter
            (fun f => (lookupJson kvs f).isNone)).map (sourceMissingMsg v)) ++
        (match lookupJson kvs "cmake_options" with
         | some (Json.obj _) => []
         | some _ => [cmakeMsg v]
         | none => [])) := by
  simp only [validate_source, missingSourceFieldErrors_obj, exc_bind_ok, jsonContains]
  cases h : lookupJson kvs "cmake_options" with
  | none => simp [h]
  | some val => cases val <;> simp [jsonGet, h]

/-- Every error produced by the `validate_source` field loop is a
version-prefixed missing-field message. -/
theorem missingSourceFieldErrors_mem (v : String) (src : Json) :
    ∀ (fields : List String) (errs : List String),
      missingSourceFieldErrors v src fields = Except.ok errs →
      ∀ e ∈ errs, ∃ f, e = sourceMissingMsg v f := by
  intro fields
  induction fields with
  | nil =>
    intro errs h e he
    cases h
    cases he
  | cons f rest ih =>
    intro errs h e he
    cases hc : jsonContains src f with
    | error msg => rw [missingSourceFieldErrors, hc] at h; cases h
    | ok c =>
      cases ht : missingSourceFieldErrors v src rest with
      | error msg => rw [missingSourceFieldErrors, hc, ht] at h; cases h
      | ok tail =>
        rw [missingSourceFieldErrors, hc, ht] at h
        simp only [exc_bind_ok, Except.ok.injEq] at h
        subst h
        cases c with
        | true => exact ih tail ht e (by simpa using he)
        | false =>
          rcases List.mem_cons.mp (by simpa using he : e ∈ sourceMissingMsg v f :: tail) with he | he
          · exact ⟨f, he⟩
          · exact ih tail ht e he

/-- Every error returned by `validate_source` starts with `"Version "`. -/
theorem validate_source_tag2 (v : String) (src : Json) (errs : List String)
    (h : validate_source v src = Except.ok errs) :
    ∀ e ∈ errs, tag2 e = ['V', 'e'] := by
  intro e he
  cases hb : missingSourceFieldErrors v src REQUIRED_SOURCE_FIELDS with
  | error msg => rw [validate_source, hb] at h; cases h
  | ok base =>
    have hbase : ∀ x ∈ base, tag2 x = ['V', 'e'] := by
      intro x hx
      obtain ⟨f, rfl⟩ := missingSourceFieldErrors_mem v src _ base hb x hx
      exact tag2_sourceMissingMsg v f
    cases hc : jsonContains src "cmake_options" with
    | error msg => rw [validate_source, hb, hc] at h; cases h
    | ok c =>
      cases c with
      | false =>
        rw [validate_source, hb, hc] at h
        simp only [exc_bind_ok, if_neg, Bool.false_eq_true, not_false_iff,
          Except.ok.injEq] at h
        subst h
        exact hbase e he
      | true =>
        cases hg : jsonGet src "cmake_options" with
        | error msg => rw [validate_source, hb, hc, hg] at h; cases h
        | ok val =>
          rw [validate_source, hb, hc, hg] at h
          simp only [exc_bind_ok, if_pos, Except.ok.injEq] at h
          subst h
          have hsplit : e ∈ base ∨ e = cmakeMsg v := by
            cases val <;> simp at he <;> tauto
          rcases hsplit with he2 | rfl
          · exact hbase e he2
          · exact tag2_cmakeMsg v

/-- Every error contributed by one version directory starts with
`"Version "`. -/
theorem versionEntryErrors_tag2 (vd : VersionDir) (errs : List String)
    (h : versionEntryErrors vd = Except.ok errs) :
    ∀ e ∈ errs, tag2 e = ['V', 'e'] := by
  intro e he
  cases hs : vd.sourceJson with
  | none =>
    rw [versionEntryErrors, hs] at h
    cases h
    rcases List.mem_singleton.mp he with rfl
    exact tag2_versionMissingSourceMsg vd.name
  | some r =>
    cases r with
    | error msg =>
      rw [versionEntryErrors, hs] at h
      cases h
      rcases List.mem_singleton.mp he with rfl
      exact tag2_versionInvalidJsonMsg vd.name msg
    | ok src =>
      rw [versionEntryErrors, hs] at h
      exact validate_source_tag2 vd.name src errs h e he

/-- `versions_found` collects every version directory name, in order,
regardless of the state of its `source.json`. -/
theorem processVersions_found (dirs : List VersionDir) (found verrs : List String)
    (h : processVersions dirs = Except.ok (found, verrs)) :
    found = dirs.map VersionDir.name := by
  induction dirs generalizing found verrs with
  | nil =>
    cases h
    rfl
  | cons vd rest ih =>
    cases hh : versionEntryErrors vd with
    | error msg => rw [processVersions, hh] at h; cases h
    | ok head =>
      cases ht : processVersions rest with
      | error msg => rw [processVersions, hh, ht] at h; cases h
      | ok fv =>
        rw [processVersions, hh, ht] at h
        simp only [exc_bind_ok, Except.ok.injEq, Prod.mk.injEq] at h
        obtain ⟨h1, h2⟩ := h
        simp [← h1, List.map_cons, ih fv.1 fv.2 (by rw [ht])]

/-- Every error collected by the version loop starts with `"Version "`. -/
theorem processVersions_tag2 (dirs : List VersionDir) (found verrs : List String)
    (h : processVersions dirs = Except.ok (found, verrs)) :
    ∀ e ∈ verrs, tag2 e = ['V', 'e'] := by
  induction dirs generalizing found verrs with
  | nil =>
    cases h
    intro e he
    cases he
  | cons vd rest ih =>
    cases hh : versionEntryErrors vd with
    | error msg => rw [processVersions, hh] at h; cases h
    | ok head =>
      cases ht : processVersions rest with
      | error msg => rw [processVersions, hh, ht] at h; cases h
      | ok fv =>
        rw [processVersions, hh, ht] at h
        simp only [exc_bind_ok, Except.ok.injEq, Prod.mk.injEq] at h
        obtain ⟨h1, h2⟩ := h
        intro e he
        rw [← h2] at he
        rcases List.mem_append.mp he with he | he
        · exact versionEntryErrors_tag2 vd head hh e he
        · exact ih fv.1 fv.2 (by rw [ht]) e he

/-- The `default_version` cross-check yields nothing or a single
`default_version ... not found` message. -/
theorem defaultVersionCheck_shape (m : Json) (found : List String)
    (derrs : List String) (h : defaultVersionCheck m found = Except.ok derrs) :
    derrs = [] ∨ ∃ x, derrs = [defaultVersionMsg x] := by
  cases hc : jsonContains m "default_version" with
  | error msg => rw [defaultVersionCheck, hc] at h; cases h
  | ok c =>
    cases c with
    | false =>
      rw [defaultVersionCheck, hc] at h
      simp only [exc_bind_ok, Bool.false_eq_true, if_neg, not_false_iff,
        Except.ok.injEq] at h
      exact Or.inl h.symm
    | true =>
      cases hg : jsonGet m "default_version" with
      | error msg => rw [defaultVersionCheck, hc, hg] at h; cases h
      | ok dv =>
        rw [defaultVersionCheck, hc, hg] at h
        simp only [exc_bind_ok, if_pos, Except.ok.injEq] at h
        subst h
        by_cases hin : jsonInStrList dv found = true
        · simp [hin]
        · simp only [Bool.not_eq_true] at hin
          simp [hin]

/-! ## Shapes of the individual metadata checks -/

theorem nameChecks_obj (d : String) (kvs : List (String × Json)) (s : String)
    (h : lookupJson kvs "name" = some (Json.str s)) :
    nameChecks d (Json.obj kvs) =
      Except.ok ((if namePatternMatch s then [] else [invalidNameMsg s]) ++
        (if d = s then [] else [mismatchMsg d s])) := by
  simp [nameChecks, jsonGet, h, jsonAsStr]

theorem descriptionCheck_shape (m : Json) (e : List String)
    (h : descriptionCheck m = Except.ok e) : e = [] ∨ e = [descriptionMsg] := by
  cases hg : jsonGet m "description" with
  | error msg => rw [descriptionCheck, hg] at h; cases h
  | ok dsc =>
    rw [descriptionCheck, hg] at h
    simp only [exc_bind_ok] at h
    cases hl : jsonLen dsc with
    | error msg => rw [hl] at h; cases h
    | ok n =>
      rw [hl] at h
      simp only [exc_bind_ok, Except.ok.injEq] at h
      subst h
      by_cases hn : 200 < n <;> simp [hn]

theorem licenseCheck_shape (m : Json) (e : List String)
    (h : licenseCheck m = Except.ok e) : e = [] ∨ ∃ x, e = [licenseMsg x] := by
  cases hg : jsonGet m "license" with
  | error msg => rw [licenseCheck, hg] at h; cases h
  | ok lic =>
    rw [licenseCheck, hg] at h
    simp only [exc_bind_ok] at h
    by_cases hh : hashableJson lic = true
    · rw [if_pos hh] at h
      cases h
      by_cases hin : jsonInStrList lic VALID_LICENSES = true <;> simp [hin]
    · rw [if_neg hh] at h
      cases h

theorem repositoryCheck_shape (m : Json) (e : List String)
    (h : repositoryCheck m = Except.ok e) :
    e = [] ∨ e = [repoFieldsMsg] ∨ ∃ x, e = [repoTypeMsg x] := by
  cases hg : jsonGet m "repository" with
  | error msg => rw [repositoryCheck, hg] at h; cases h
  | ok repo =>
    rw [repositoryCheck, hg] at h
    simp only [exc_bind_ok] at h
    cases hc : jsonContains repo "type" with
    | error msg => rw [hc] at h; cases h
    | ok hasType =>
      rw [hc] at h
      simp only [exc_bind_ok] at h
      cases hasType with
      | false =>
        simp only [Bool.false_eq_true, if_neg, not_false_iff, exc_bind_ok, if_pos] at h
        cases h
        exact Or.inr (Or.inl rfl)
      | true =>
        cases hu : jsonContains repo "url" with
        | error msg => rw [if_pos rfl, hu] at h; cases h
        | ok hasUrl =>
          rw [if_pos rfl, hu] at h
          simp only [exc_bind_ok] at h
          cases hasUrl with
          | false =>
            simp only [Bool.not_false, if_pos] at h
            cases h
            exact Or.inr (Or.inl rfl)
          | true =>
            simp only [Bool.not_true, Bool.false_eq_true, if_neg, not_false_iff] at h
            cases ht : jsonGet repo "type" with
            | error msg => rw [ht] at h; cases h
            | ok t =>
              rw [ht] at h
              simp only [exc_bind_ok, Except.ok.injEq] at h
              subst h
              by_cases hin : jsonInStrList t VALID_REPO_TYPES = true
              · simp [hin]
              · simp only [Bool.not_eq_true] at hin
                simp [hin]

theorem targetsCheck_shape (m : Json) (e : List String)
    (h : targetsCheck m = Except.ok e) : e = [] ∨ e = [targetsMsg] := by
  cases hg : jsonGet m "targets" with
  | error msg => rw [targetsCheck, hg] at h; cases h
  | ok t =>
    rw [targetsCheck, hg] at h
    simp only [exc_bind_ok, Except.ok.injEq] at h
    subst h
    by_cases ht : pyTruthy t = true
    · simp [ht]
    · simp only [Bool.not_eq_true] at ht
      simp [ht]

theorem maintainersCheck_shape (m : Json) (e : List String)
    (h : maintainersCheck m = Except.ok e) : e = [] ∨ e = [maintainersMsg] := by
  cases hg : jsonGet m "maintainers" with
  | error msg => rw [maintainersCheck, hg] at h; cases h
  | ok t =>
    rw [maintainersCheck, hg] at h
    simp only [exc_bind_ok, Except.ok.injEq] at h
    subst h
    by_cases ht : pyTruthy t = true
    · simp [ht]
    · simp only [Bool.not_eq_true] at ht
      simp [ht]

theorem depErrors_mem (items : List Json) (e : List String)
    (h : depErrors items = Except.ok e) : ∀ x ∈ e, x = depMsg := by
  induction items generalizing e with
  | nil =>
    cases h
    intro x hx
    cases hx
  | cons dep rest ih =>
    cases hc : jsonContains dep "name" with
    | error msg => rw [depErrors, hc] at h; cases h
    | ok c =>
      cases ht : depErrors rest with
      | error msg => rw [depErrors, hc, ht] at h; cases h
      | ok tail =>
        rw [depErrors, hc, ht] at h
        simp only [exc_bind_ok, Except.ok.injEq] at h
        subst h
        intro x hx
        cases c with
        | true => exact ih tail ht x (by simpa using hx)
        | false =>
          rcases List.mem_cons.mp (by simpa using hx : x ∈ depMsg :: tail) with hx | hx
          · exact hx
          · exact ih tail ht x hx

theorem dependenciesCheck_mem (m : Json) (e : List String)
    (h : dependenciesCheck m = Except.ok e) : ∀ x ∈ e, x = depMsg := by
  cases hc : jsonContains m "dependencies" with
  | error msg => rw [dependenciesCheck, hc] at h; cases h
  | ok c =>
    rw [dependenciesCheck, hc] at h
    simp only [exc_bind_ok] at h
    cases c with
    | false =>
      simp only [Bool.false_eq_true, if_neg, not_false_iff] at h
      cases h
      intro x hx
      cases hx
    | true =>
      rw [if_pos rfl] at h
      cases hg : jsonGet m "dependencies" with
      | error msg => rw [hg] at h; cases h
      | ok deps =>
        rw [hg] at h
        simp only [exc_bind_ok] at h
        cases hi : jsonIter deps with
        | error msg => rw [hi] at h; cases h
        | ok items =>
          rw [hi] at h
          simp only [exc_bind_ok] at h
          exact depErrors_mem items e h

/-! ## Checks on fully valid inputs -/

theorem nameChecks_valid (d : String) (kvs : List (String × Json)) (s : String)
    (h : lookupJson kvs "name" = some (Json.str s)) (hp : namePatternMatch s = true)
    (hd : d = s) : nameChecks d (Json.obj kvs) = Except.ok [] := by
  rw [nameChecks_obj d kvs s h, hp, hd]
  simp

theorem descriptionCheck_valid (kvs : List (String × Json)) (dsc : String)
    (h : lookupJson kvs "description" = some (Json.str dsc))
    (hlen : dsc.length ≤ 200) : descriptionCheck (Json.obj kvs) = Except.ok [] := by
  simp [descriptionCheck, jsonGet, h, jsonLen]
  omega

theorem licenseCheck_valid (kvs : List (String × Json)) (lic : String)
    (h : lookupJson kvs "license" = some (Json.str lic))
    (hin : VALID_LICENSES.contains lic = true) : licenseCheck (Json.obj kvs) = Except.ok [] := by
  simp [licenseCheck, jsonGet, h, hashableJson, jsonInStrList, hin]
  simpa using hin

theorem repositoryCheck_valid (kvs rkvs : List (String × Json)) (t : String) (u : Json)
    (h : lookupJson kvs "repository" = some (Json.obj rkvs))
    (ht : lookupJson rkvs "type" = some (Json.str t))
    (htin : VALID_REPO_TYPES.contains t = true)
    (hu : lookupJson rkvs "url" = some u) : repositoryCheck (Json.obj kvs) = Except.ok [] := by
  simp [repositoryCheck, jsonGet, h, jsonContains, ht, hu, jsonInStrList, htin]
  simpa using htin

theorem targetsCheck_valid (kvs : List (String × Json)) (xs : List Json)
    (h : lookupJson kvs "targets" = some (Json.arr xs)) (hne : xs ≠ []) :
    targetsCheck (Json.obj kvs) = Except.ok [] := by
  simp [targetsCheck, jsonGet, h, pyTruthy, hne]

theorem maintainersCheck_valid (kvs : List (String × Json)) (xs : List Json)
    (h : lookupJson kvs "maintainers" = some (Json.arr xs)) (hne : xs ≠ []) :
    maintainersCheck (Json.obj kvs) = Except.ok [] := by
  simp [maintainersCheck, jsonGet, h, pyTruthy, hne]

theorem depErrors_valid (items : List Json)
    (h : ∀ it ∈ items, ∃ ikvs, it = Json.obj ikvs ∧ (lookupJson ikvs "name").isSome) :
    depErrors items = Except.ok [] := by
  induction items with
  | nil => rfl
  | cons dep rest ih =>
    obtain ⟨ikvs, rfl, hname⟩ := h dep (List.mem_cons_self dep rest)
    rw [depErrors, ih (fun it hit => h it (List.mem_cons_of_mem _ hit))]
    simp [jsonContains, hname]

theorem dependenciesCheck_absent (kvs : List (String × Json))
    (h : lookupJson kvs "dependencies" = none) :
    dependenciesCheck (Json.obj kvs) = Except.ok [] := by
  simp [dependenciesCheck, jsonContains, h]

theorem dependenciesCheck_arr (kvs : List (String × Json)) (items : List Json)
    (h : lookupJson kvs "dependencies" = some (Json.arr items))
    (hall : ∀ it ∈ items, ∃ ikvs, it = Json.obj ikvs ∧ (lookupJson ikvs "name").isSome) :
    dependenciesCheck (Json.obj kvs) = Except.ok [] := by
  simp [dependenciesCheck, jsonContains, jsonGet, jsonIter, h, depErrors_valid items hall]

/-- All seven field-level checks passing makes `validate_metadata`
return the empty list. -/
theorem validate_metadata_ok_nil (d : String) (kvs : List (String × Json))
    (hreq : ∀ f ∈ REQUIRED_METADATA_FIELDS, (lookupJson kvs f).isSome)
    (h1 : nameChecks d (Json.obj kvs) = Except.ok [])
    (h2 : descriptionCheck (Json.obj kvs) = Except.ok [])
    (h3 : licenseCheck (Json.obj kvs) = Except.ok [])
    (h4 : repositoryCheck (Json.obj kvs) = Except.ok [])
    (h5 : targetsCheck (Json.obj kvs) = Except.ok [])
    (h6 : maintainersCheck (Json.obj kvs) = Except.ok [])
    (h7 : dependenciesCheck (Json.obj kvs) = Except.ok []) :
    validate_metadata d (Json.obj kvs) = Except.ok [] := by
  rw [validate_metadata, missingFieldErrors_obj_all_present kvs _ hreq]
  simp [h1, h2, h3, h4, h5, h6, h7]

theorem validate_source_valid (v : String) (kvs : List (String × Json))
    (hg : (lookupJson kvs "git_tag").isSome = true)
    (ht : (lookupJson kvs "tested").isSome = true)
    (hc : cmakeOptionOk kvs = true) :
    validate_source v (Json.obj kvs) = Except.ok [] := by
  rw [validate_source_obj]
  have hfil : REQUIRED_SOURCE_FIELDS.filter (fun f => (lookupJson kvs f).isNone) = [] := by
    rw [List.filter_eq_nil_iff]
    intro f hf
    have hf2 : f = "git_tag" ∨ f = "tested" := by
      simpa [REQUIRED_SOURCE_FIELDS] using hf
    rcases hf2 with rfl | rfl
    · intro hn
      rw [Option.isNone_iff_eq_none] at hn
      rw [hn] at hg
      cases hg
    · intro hn
      rw [Option.isNone_iff_eq_none] at hn
      rw [hn] at ht
      cases ht
  rw [hfil]
  cases hm : lookupJson kvs "cmake_options" with
  | none => rfl
  | some val =>
    simp only [cmakeOptionOk, hm] at hc
    cases val <;> simp_all

theorem versionEntryErrors_valid (vd : VersionDir) (h : versionCond vd = true) :
    versionEntryErrors vd = Except.ok [] := by
  cases hs : vd.sourceJson with
  | none => simp [versionCond, hs] at h
  | some r =>
    cases r with
    | error msg => simp [versionCond, hs] at h
    | ok src =>
      cases src with
      | obj skvs =>
        simp only [versionCond, hs, Bool.and_eq_true] at h
        obtain ⟨⟨hg, ht⟩, hc⟩ := h
        rw [versionEntryErrors, hs]
        exact validate_source_valid vd.name skvs hg ht hc
      | null => simp [versionCond, hs] at h
      | bool b => simp [versionCond, hs] at h
      | num n => simp [versionCond, hs] at h
      | str s => simp [versionCond, hs] at h
      | arr l => simp [versionCond, hs] at h

theorem processVersions_valid (dirs : List VersionDir)
    (h : ∀ vd ∈ dirs, versionCond vd = true) :
    processVersions dirs = Except.ok (dirs.map VersionDir.name, []) := by
  induction dirs with
  | nil => rfl
  | cons vd rest ih =>
    rw [processVersions, versionEntryErrors_valid vd (h vd (List.mem_cons_self vd rest)),
      ih (fun x hx => h x (List.mem_cons_of_mem vd hx))]
    rfl

theorem defaultVersionCheck_valid (kvs : List (String × Json)) (found : List String)
    (dv : String) (h : lookupJson kvs "default_version" = some (Json.str dv))
    (hin : found.contains dv = true) :
    defaultVersionCheck (Json.obj kvs) found = Except.ok [] := by
  simp [defaultVersionCheck, jsonContains, jsonGet, h, jsonInStrList, hin]
  simpa using hin

/-! ## Decompositions of successful runs -/

/-- A successful `validate_metadata` run on an object with all required
fields present decomposes into the seven field-level checks. -/
theorem validate_metadata_decomp (d : String) (kvs : List (String × Json))
    (errs : List String)
    (hreq : ∀ f ∈ REQUIRED_METADATA_FIELDS, (lookupJson kvs f).isSome)
    (h : validate_metadata d (Json.obj kvs) = Except.ok errs) :
    ∃ e1 e2 e3 e4 e5 e6 e7,
      nameChecks d (Json.obj kvs) = Except.ok e1 ∧
      descriptionCheck (Json.obj kvs) = Except.ok e2 ∧
      licenseCheck (Json.obj kvs) = Except.ok e3 ∧
      repositoryCheck (Json.obj kvs) = Except.ok e4 ∧
      targetsCheck (Json.obj kvs) = Except.ok e5 ∧
      maintainersCheck (Json.obj kvs) = Except.ok e6 ∧
      dependenciesCheck (Json.obj kvs) = Except.ok e7 ∧
      errs = e1 ++ e2 ++ e3 ++ e4 ++ e5 ++ e6 ++ e7 := by
  rw [validate_metadata, missingFieldErrors_obj_all_present kvs _ hreq] at h
  simp only [exc_bind_ok, List.isEmpty_nil, if_pos] at h
  cases h1 : nameChecks d (Json.obj kvs) with
  | error msg => rw [h1] at h; cases h
  | ok e1 =>
  rw [h1] at h
  simp only [exc_bind_ok] at h
  cases h2 : descriptionCheck (Json.obj kvs) with
  | error msg => rw [h2] at h; cases h
  | ok e2 =>
  rw [h2] at h
  simp only [exc_bind_ok] at h
  cases h3 : licenseCheck (Json.obj kvs) with
  | error msg => rw [h3] at h; cases h
  | ok e3 =>
  rw [h3] at h
  simp only [exc_bind_ok] at h
  cases h4 : repositoryCheck (Json.obj kvs) with
  | error msg => rw [h4] at h; cases h
  | ok e4 =>
  rw [h4] at h
  simp only [exc_bind_ok] at h
  cases h5 : targetsCheck (Json.obj kvs) with
  | error msg => rw [h5] at h; cases h
  | ok e5 =>
  rw [h5] at h
  simp only [exc_bind_ok] at h
  cases h6 : maintainersCheck (Json.obj kvs) with
  | error msg => rw [h6] at h; cases h
  | ok e6 =>
  rw [h6] at h
  simp only [exc_bind_ok] at h
  cases h7 : dependenciesCheck (Json.obj kvs) with
  | error msg => rw [h7] at h; cases h
  | ok e7 =>
  rw [h7] at h
  simp only [exc_bind_ok, Except.ok.injEq] at h
  exact ⟨e1, e2, e3, e4, e5, e6, e7, rfl, rfl, rfl, rfl, rfl, rfl, rfl, by simp [← h]⟩

/-- A successful `validate_package` run with parsed metadata and at
least one version directory decomposes into its three stages. -/
theorem validate_package_decomp (pkg : PackageDir) (m : Json) (errs : List String)
    (hm : pkg.metadataJson = some (Except.ok m))
    (hne : pkg.versionDirs ≠ [])
    (h : validate_package pkg = Except.ok errs) :
    ∃ merrs found verrs derrs,
      validate_metadata pkg.name m = Except.ok merrs ∧
      processVersions pkg.versionDirs = Except.ok (found, verrs) ∧
      defaultVersionCheck m found = Except.ok derrs ∧
      errs = merrs ++ verrs ++ derrs := by
  simp only [validate_package, hm] at h
  cases h0 : validate_metadata pkg.name m with
  | error msg => rw [h0] at h; cases h
  | ok merrs =>
  rw [h0] at h
  simp only [exc_bind_ok] at h
  rw [if_neg (by simpa [List.isEmpty_iff] using hne)] at h
  cases h1 : processVersions pkg.versionDirs with
  | error msg => rw [h1] at h; cases h
  | ok fv =>
  rw [h1] at h
  simp only [exc_bind_ok] at h
  cases h2 : defaultVersionCheck m fv.1 with
  | error msg => rw [h2] at h; cases h
  | ok derrs =>
  rw [h2] at h
  simp only [exc_bind_ok, Except.ok.injEq] at h
  exact ⟨merrs, fv.1, fv.2, derrs, rfl, rfl, h2, h.symm⟩

/-! ## Mention lemmas: version-prefixed messages contain the version -/

theorem mention_sourceMissingMsg (v f : String) :
    occursIn v.data (sourceMissingMsg v f).data = true := by
  rw [sourceMissingMsg, data_append, data_append]
  exact occursIn_append_left _ _ _

theorem mention_cmakeMsg (v : String) :
    occursIn v.data (cmakeMsg v).data = true := by
  rw [cmakeMsg, data_append, data_append]
  exact occursIn_append_left _ _ _

/-! ## Claim theorems -/

/-- C9: a `metadata.json` that parses to the JSON document `5` (a
syntactically valid document that is not a container) makes
`validate_package` raise an uncaught `TypeError` from the first
required-field membership test instead of returning an error list. -/
theorem claim_C9_uncaught_exception :
    validate_package pkgNumberMetadata =
      Except.error "TypeError: argument of type 'int' is not iterable" := rfl

/-- C4: when at least one required field is missing from a parsed
metadata object, `validate_metadata` returns exactly the
missing-required-field message for each missing field, in field-list
order, and no deeper check contributes anything. -/
theorem claim_C4_missing_required_fields (d : String) (kvs : List (String × Json))
    (h : ∃ f ∈ REQUIRED_METADATA_FIELDS, lookupJson kvs f = none) :
    validate_metadata d (Json.obj kvs) =
      Except.ok ((REQUIRED_METADATA_FIELDS.filter
        (fun f => (lookupJson kvs f).isNone)).map missingFieldMsg) := by
  rw [validate_metadata, missingFieldErrors_obj]
  simp only [exc_bind_ok]
  obtain ⟨f, hf, hnone⟩ := h
  have hmem : missingFieldMsg f ∈ (REQUIRED_METADATA_FIELDS.filter
      (fun f => (lookupJson kvs f).isNone)).map missingFieldMsg :=
    List.mem_map_of_mem _ (List.mem_filter.mpr ⟨hf, by simp [hnone]⟩)
  have hne : ¬(((REQUIRED_METADATA_FIELDS.filter
      (fun f => (lookupJson kvs f).isNone)).map missingFieldMsg).isEmpty = true) := by
    rw [List.isEmpty_iff]
    intro he
    rw [he] at hmem
    cases hmem
  rw [if_neg hne]

/-- Witness for C4 at a concrete package: only `name` is present, so
the seven other required fields are reported and nothing else. -/
theorem claim_C4_witness :
    validate_metadata "bar" (Json.obj [("name", Json.str "foo")]) =
      Except.ok ((REQUIRED_METADATA_FIELDS.filter
        (fun f => (lookupJson [("name", Json.str "foo")] f).isNone)).map missingFieldMsg) :=
  claim_C4_missing_required_fields "bar" [("name", Json.str "foo")]
    ⟨"description", by decide, rfl⟩

/-- C5: `validate_package` short-circuits exactly on missing
`metadata.json`, unparseable `metadata.json`, and zero version
directories; in every other case the metadata errors, the per-version
errors and the `default_version` cross-check all accumulate. -/
theorem claim_C5_short_circuit (pkg : PackageDir) :
    (pkg.metadataJson = none →
      validate_package pkg = Except.ok [missingMetadataMsg pkg.name]) ∧
    (∀ e, pkg.metadataJson = some (Except.error e) →
      validate_package pkg = Except.ok [invalidMetadataJsonMsg e]) ∧
    (∀ m merrs, pkg.metadataJson = some (Except.ok m) →
      validate_metadata pkg.name m = Except.ok merrs → pkg.versionDirs = [] →
      validate_package pkg = Except.ok (merrs ++ [versionsRequiredMsg])) ∧
    (∀ m merrs found verrs derrs, pkg.metadataJson = some (Except.ok m) →
      validate_metadata pkg.name m = Except.ok merrs → pkg.versionDirs ≠ [] →
      processVersions pkg.versionDirs = Except.ok (found, verrs) →
      defaultVersionCheck m found = Except.ok derrs →
      validate_package pkg = Except.ok (merrs ++ verrs ++ derrs)) := by
  refine ⟨fun h => ?_, fun e h => ?_, fun m merrs hm hv hnil => ?_,
    fun m merrs found verrs derrs hm hv hne hp hd => ?_⟩
  · rw [validate_package, h]
  · rw [validate_package, h]
  · simp only [validate_package, hm, exc_bind_ok, hv]
    rw [if_pos (by simp [hnil])]
  · simp only [validate_package, hm, exc_bind_ok, hv, hp, hd]
    rw [if_neg (by simpa [List.isEmpty_iff] using hne)]

/-- Witness for C5: the four branches exercised on four concrete
packages. -/
theorem claim_C5_witness :
    validate_package pkgNoMetadata = Except.ok [missingMetadataMsg "nometa"] ∧
    validate_package pkgBadJson =
      Except.ok [invalidMetadataJsonMsg "Expecting value: line 1 column 1 (char 0)"] ∧
    validate_package pkgNoVersions = Except.ok ([] ++ [versionsRequiredMsg]) ∧
    validate_package fooPkg = Except.ok ([] ++ [] ++ []) :=
  ⟨(claim_C5_short_circuit pkgNoMetadata).1 rfl,
   (claim_C5_short_circuit pkgBadJson).2.1 _ rfl,
   (claim_C5_short_circuit pkgNoVersions).2.2.1 fooMeta [] rfl rfl rfl,
   (claim_C5_short_circuit fooPkg).2.2.2 fooMeta [] ["1.0.0"] [] [] rfl rfl
     (List.cons_ne_nil _ _) rfl rfl⟩

/-- C6: on a parsed source object, `validate_source` returns one error
per missing required field plus one error when `cmake_options` is
present and not an object, each error mentioning the version
identifier; it is empty when both fields are present and
`cmake_options` is absent or an object. -/
theorem claim_C6_source_errors (v : String) (kvs : List (String × Json))
    (errs : List String) (h : validate_source v (Json.obj kvs) = Except.ok errs) :
    errs = ((REQUIRED_SOURCE_FIELDS.filter
        (fun f => (lookupJson kvs f).isNone)).map (sourceMissingMsg v)) ++
      (match lookupJson kvs "cmake_options" with
       | some (Json.obj _) => []
       | some _ => [cmakeMsg v]
       | none => []) ∧
    ∀ e ∈ errs, occursIn v.data e.data = true := by
  rw [validate_source_obj] at h
  simp only [Except.ok.injEq] at h
  subst h
  refine ⟨rfl, fun e he => ?_⟩
  rcases List.mem_append.mp he with he | he
  · obtain ⟨f, hf, rfl⟩ := List.mem_map.mp he
    exact mention_sourceMissingMsg v f
  · cases hm : lookupJson kvs "cmake_options" with
    | none => rw [hm] at he; cases he
    | some val =>
      rw [hm] at he
      cases val <;> simp only [List.mem_singleton, List.not_mem_nil] at he <;>
        subst he <;> exact mention_cmakeMsg v

/-- Witness for C6: a source document missing `git_tag` yields exactly
the one message, and it mentions the version. -/
theorem claim_C6_witness :
    ([sourceMissingMsg "1.0" "git_tag"] : List String) =
      ((REQUIRED_SOURCE_FIELDS.filter
        (fun f => (lookupJson [("tested", Json.bool true)] f).isNone)).map
          (sourceMissingMsg "1.0")) ++
      (match lookupJson [("tested", Json.bool true)] "cmake_options" with
       | some (Json.obj _) => []
       | some _ => [cmakeMsg "1.0"]
       | none => []) ∧
    ∀ e ∈ ([sourceMissingMsg "1.0" "git_tag"] : List String),
      occursIn "1.0".data e.data = true :=
  claim_C6_source_errors "1.0" [("tested", Json.bool true)]
    [sourceMissingMsg "1.0" "git_tag"] rfl

/-! ## Extracting the field-level checks from the claimed conditions -/

theorem condRequired_spec (kvs : List (String × Json)) (h : condRequired kvs = true) :
    ∀ f ∈ REQUIRED_METADATA_FIELDS, (lookupJson kvs f).isSome = true := by
  simpa [condRequired, List.all_eq_true] using h

theorem condName_ok (d : String) (kvs : List (String × Json))
    (h : condName d kvs = true) : nameChecks d (Json.obj kvs) = Except.ok [] := by
  unfold condName at h
  cases hn : lookupJson kvs "name" with
  | none => rw [hn] at h; simp at h
  | some nv =>
    rw [hn] at h
    cases nv with
    | str s =>
      simp only [Bool.and_eq_true, beq_iff_eq] at h
      exact nameChecks_valid d kvs s hn h.1 h.2
    | null => simp at h
    | bool b => simp at h
    | num n => simp at h
    | arr l => simp at h
    | obj o => simp at h

theorem condLicense_ok (kvs : List (String × Json))
    (h : condLicense kvs = true) : licenseCheck (Json.obj kvs) = Except.ok [] := by
  unfold condLicense at h
  cases hn : lookupJson kvs "license" with
  | none => rw [hn] at h; simp at h
  | some nv =>
    rw [hn] at h
    cases nv with
    | str l => exact licenseCheck_valid kvs l hn h
    | null => simp at h
    | bool b => simp at h
    | num n => simp at h
    | arr a => simp at h
    | obj o => simp at h

theorem condRepository_ok (kvs : List (String × Json))
    (h : condRepository kvs = true) : repositoryCheck (Json.obj kvs) = Except.ok [] := by
  unfold condRepository at h
  cases hn : lookupJson kvs "repository" with
  | none => rw [hn] at h; simp at h
  | some nv =>
    rw [hn] at h
    cases nv with
    | obj rkvs =>
      simp only [Bool.and_eq_true] at h
      obtain ⟨h1, h2⟩ := h
      cases ht : lookupJson rkvs "type" with
      | none => rw [ht] at h1; simp at h1
      | some tv =>
        rw [ht] at h1
        cases tv with
        | str t =>
          cases hu : lookupJson rkvs "url" with
          | none => rw [hu] at h2; cases h2
          | some u => exact repositoryCheck_valid kvs rkvs t u hn ht h1 hu
        | null => simp at h1
        | bool b => simp at h1
        | num n => simp at h1
        | arr a => simp at h1
        | obj o => simp at h1
    | null => simp at h
    | bool b => simp at h
    | num n => simp at h
    | str s => simp at h
    | arr a => simp at h

theorem condTargets_ok (kvs : List (String × Json))
    (h : condTargets kvs = true) : targetsCheck (Json.obj kvs) = Except.ok [] := by
  unfold condTargets at h
  cases hn : lookupJson kvs "targets" with
  | none => rw [hn] at h; simp at h
  | some nv =>
    rw [hn] at h
    cases nv with
    | arr xs =>
      simp only [Bool.not_eq_true'] at h
      exact targetsCheck_valid kvs xs hn (by simpa [List.isEmpty_iff] using h)
    | null => simp at h
    | bool b => simp at h
    | num n => simp at h
    | str s => simp at h
    | obj o => simp at h

theorem condMaintainers_ok (kvs : List (String × Json))
    (h : condMaintainers kvs = true) : maintainersCheck (Json.obj kvs) = Except.ok [] := by
  unfold condMaintainers at h
  cases hn : lookupJson kvs "maintainers" with
  | none => rw [hn] at h; simp at h
  | some nv =>
    rw [hn] at h
    cases nv with
    | arr xs =>
      simp only [Bool.not_eq_true'] at h
      exact maintainersCheck_valid kvs xs hn (by simpa [List.isEmpty_iff] using h)
    | null => simp at h
    | bool b => simp at h
    | num n => simp at h
    | str s => simp at h
    | obj o => simp at h

theorem condDeps_ok (kvs : List (String × Json))
    (h : condDeps kvs = true) : dependenciesCheck (Json.obj kvs) = Except.ok [] := by
  unfold condDeps at h
  cases hn : lookupJson kvs "dependencies" with
  | none => exact dependenciesCheck_absent kvs hn
  | some nv =>
    rw [hn] at h
    cases nv with
    | arr items =>
      apply dependenciesCheck_arr kvs items hn
      intro it hit
      have hp := (List.all_eq_true.mp h) it hit
      cases it with
      | obj ikvs => exact ⟨ikvs, rfl, by simpa using hp⟩
      | null => simp at hp
      | bool b => simp at hp
      | num n => simp at hp
      | str s => simp at hp
      | arr a => simp at hp
    | null => simp at h
    | bool b => simp at h
    | num n => simp at h
    | str s => simp at h
    | obj o => simp at h

theorem condDefault_spec (pkg : PackageDir) (kvs : List (String × Json))
    (h : condDefault pkg kvs = true) :
    ∃ dv, lookupJson kvs "default_version" = some (Json.str dv) ∧
      (pkg.versionDirs.map VersionDir.name).contains dv = true := by
  unfold condDefault at h
  cases hn : lookupJson kvs "default_version" with
  | none => rw [hn] at h; simp at h
  | some nv =>
    rw [hn] at h
    cases nv with
    | str dv => exact ⟨dv, rfl, h⟩
    | null => simp at h
    | bool b => simp at h
    | num n => simp at h
    | arr a => simp at h
    | obj o => simp at h

/-- C1 (amended): a package meeting every condition the claim lists
*plus* the schema's description-length bound passes the validator with
an empty error list. -/
theorem claim_C1_valid_package (pkg : PackageDir)
    (h1 : claimC1Conds pkg = true) (h2 : condDescription pkg = true) :
    validate_package pkg = Except.ok [] := by
  unfold claimC1Conds at h1
  unfold condDescription at h2
  cases hm : pkg.metadataJson with
  | none => rw [hm] at h1; simp at h1
  | some mr =>
    rw [hm] at h1 h2
    cases mr with
    | error e => simp at h1
    | ok m =>
      cases m with
      | obj kvs =>
        simp only [Bool.and_eq_true] at h1 h2
        obtain ⟨⟨⟨⟨⟨⟨⟨⟨⟨hreq, hname⟩, hlic⟩, hrepo⟩, htgt⟩, hmain⟩, hdeps⟩, hne⟩,
          hvers⟩, hdef⟩ := h1
        have hdesc : descriptionCheck (Json.obj kvs) = Except.ok [] := by
          cases hdl : lookupJson kvs "description" with
          | none => rw [hdl] at h2; simp at h2
          | some dj =>
            rw [hdl] at h2
            cases dj with
            | str dsc => exact descriptionCheck_valid kvs dsc hdl (by simpa using h2)
            | null => simp at h2
            | bool b => simp at h2
            | num n => simp at h2
            | arr a => simp at h2
            | obj o => simp at h2
        have hmeta : validate_metadata pkg.name (Json.obj kvs) = Except.ok [] :=
          validate_metadata_ok_nil pkg.name kvs (condRequired_spec kvs hreq)
            (condName_ok pkg.name kvs hname) hdesc (condLicense_ok kvs hlic)
            (condRepository_ok kvs hrepo) (condTargets_ok kvs htgt)
            (condMaintainers_ok kvs hmain) (condDeps_ok kvs hdeps)
        obtain ⟨dv, hdv, hdvin⟩ := condDefault_spec pkg kvs hdef
        have hpv : processVersions pkg.versionDirs =
            Except.ok (pkg.versionDirs.map VersionDir.name, []) :=
          processVersions_valid pkg.versionDirs (List.all_eq_true.mp hvers)
        have hdc : defaultVersionCheck (Json.obj kvs)
            (pkg.versionDirs.map VersionDir.name) = Except.ok [] :=
          defaultVersionCheck_valid kvs _ dv hdv hdvin
        simp only [validate_package, hm, hmeta, exc_bind_ok, hpv, hdc]
        rw [if_neg (by simpa using hne)]
        simp [hdc]
      | null => simp at h1
      | bool b => simp at h1
      | num n => simp at h1
      | str s => simp at h1
      | arr a => simp at h1

set_option maxRecDepth 40000 in
/-- Counterexample to C1 as stated: a package meeting every listed
condition whose description has 201 characters is rejected, so the
claimed condition list is missing the description-length bound. -/
theorem claim_C1_counterexample :
    claimC1Conds pkgLongDescr = true ∧
    validate_package pkgLongDescr = Except.ok [descriptionMsg] ∧
    ([descriptionMsg] : List String) ≠ [] := by
  refine ⟨rfl, rfl, by decide⟩

/-- Witness for the amended C1 on a concrete fully valid package. -/
theorem claim_C1_witness :
    claimC1Conds fooPkg = true ∧ condDescription fooPkg = true ∧
    validate_package fooPkg = Except.ok [] :=
  ⟨rfl, rfl, claim_C1_valid_package fooPkg rfl rfl⟩

/-- C2 (amended): a version identifier is recorded among
`versions_found` for every version sub-directory, regardless of the
state of its `source.json`, and the `default_version` cross-check
reports an error exactly when the declared value is not among the
version directory names. -/
theorem claim_C2_default_version (pkg : PackageDir) (kvs : List (String × Json))
    (merrs found verrs : List String) (dv : Json)
    (h1 : pkg.metadataJson = some (Except.ok (Json.obj kvs)))
    (h2 : validate_metadata pkg.name (Json.obj kvs) = Except.ok merrs)
    (h3 : pkg.versionDirs ≠ [])
    (h4 : processVersions pkg.versionDirs = Except.ok (found, verrs))
    (h5 : lookupJson kvs "default_version" = some dv) :
    found = pkg.versionDirs.map VersionDir.name ∧
    validate_package pkg = Except.ok (merrs ++ verrs ++
      (if jsonInStrList dv found then [] else [defaultVersionMsg (pyStr dv)])) := by
  refine ⟨processVersions_found _ _ _ h4, ?_⟩
  have hd : defaultVersionCheck (Json.obj kvs) found =
      Except.ok (if jsonInStrList dv found then [] else [defaultVersionMsg (pyStr dv)]) := by
    simp [defaultVersionCheck, jsonContains, jsonGet, h5]
  simp only [validate_package, h1, h2, exc_bind_ok, h4, hd]
  rw [if_neg (by simpa [List.isEmpty_iff] using h3)]

set_option maxRecDepth 40000 in
/-- Counterexample to C2 as stated: the `1.0.0` version directory's
`source.json` is missing, `default_version` is `"1.0.0"`, and yet the
error list contains only the per-version error and no
default-version-not-found error. -/
theorem claim_C2_counterexample :
    validate_package pkgMissingSource = Except.ok [versionMissingSourceMsg "1.0.0"] ∧
    defaultVersionMsg "1.0.0" ∉ ([versionMissingSourceMsg "1.0.0"] : List String) :=
  ⟨rfl, by decide⟩

set_option maxRecDepth 40000 in
/-- Witness for the amended C2 on the same concrete package. -/
theorem claim_C2_witness :
    (["1.0.0"] : List String) = pkgMissingSource.versionDirs.map VersionDir.name ∧
    validate_package pkgMissingSource = Except.ok
      (([] : List String) ++ [versionMissingSourceMsg "1.0.0"] ++
        (if jsonInStrList (Json.str "1.0.0") ["1.0.0"] then []
         else [defaultVersionMsg (pyStr (Json.str "1.0.0"))])) :=
  claim_C2_default_version pkgMissingSource fooMetaKvs [] ["1.0.0"]
    [versionMissingSourceMsg "1.0.0"] (Json.str "1.0.0") rfl rfl
    (List.cons_ne_nil _ _) rfl rfl

/-- C7 (amended): the repository-type check runs only when both `type`
and `url` are present (it is an `elif` behind the missing-keys check);
with both present and an invalid type the invalid-repository-type error
is reported, while with `url` absent only the missing-keys error is. -/
theorem claim_C7_repo_type (d : String) (kvs rkvs : List (String × Json)) (t : Json)
    (hrepo : lookupJson kvs "repository" = some (Json.obj rkvs))
    (ht : lookupJson rkvs "type" = some t)
    (hbad : jsonInStrList t VALID_REPO_TYPES = false) :
    ((∃ u, lookupJson rkvs "url" = some u) →
      ∀ errs, (∀ f ∈ REQUIRED_METADATA_FIELDS, (lookupJson kvs f).isSome = true) →
        validate_metadata d (Json.obj kvs) = Except.ok errs →
        repoTypeMsg (pyStr t) ∈ errs) ∧
    (lookupJson rkvs "url" = none →
      repositoryCheck (Json.obj kvs) = Except.ok [repoFieldsMsg]) := by
  constructor
  · rintro ⟨u, hu⟩ errs hreq hv
    have hrc : repositoryCheck (Json.obj kvs) = Except.ok [repoTypeMsg (pyStr t)] := by
      simp [repositoryCheck, jsonGet, hrepo, jsonContains, ht, hu, hbad]
    obtain ⟨e1, e2, e3, e4, e5, e6, e7, _, _, _, hr4, _, _, _, herrs⟩ :=
      validate_metadata_decomp d kvs errs hreq hv
    rw [hrc] at hr4
    cases hr4
    subst herrs
    simp
  · intro hu
    simp [repositoryCheck, jsonGet, hrepo, jsonContains, ht, hu]

/-- Counterexample to C7 as stated: `repository` has an invalid `type`
and no `url`; only the missing-keys error is reported and no
invalid-repository-type error. -/
theorem claim_C7_counterexample :
    validate_metadata "foo" metaRepoNoUrl = Except.ok [repoFieldsMsg] ∧
    repoTypeMsg "bitbucket" ∉ ([repoFieldsMsg] : List String) :=
  ⟨rfl, by decide⟩

set_option maxRecDepth 40000 in
/-- Witness for the amended C7: with both keys present and type
`bitbucket`, the invalid-repository-type error appears. -/
theorem claim_C7_witness :
    repoTypeMsg (pyStr (Json.str "bitbucket")) ∈ ([repoTypeMsg "bitbucket"] : List String) :=
  (claim_C7_repo_type "foo" metaRepoBadTypeKvs
      [("type", Json.str "bitbucket"), ("url", Json.str "https://example.com/foo")]
      (Json.str "bitbucket") rfl rfl rfl).1
    ⟨Json.str "https://example.com/foo", rfl⟩ [repoTypeMsg "bitbucket"]
    (by decide) rfl

/-! ## Facts about `validate_all`, sorting, and the `--all` report -/

theorem validate_all_filterMap (pkgs : List PackageDir)
    (results : List (String × List String)) (h : validate_all pkgs = Except.ok results) :
    results = pkgs.filterMap (fun p =>
      match validate_package p with
      | Except.ok [] => none
      | Except.ok errs => some (p.name, errs)
      | Except.error _ => none) := by
  induction pkgs generalizing results with
  | nil => cases h; rfl
  | cons p rest ih =>
    cases hp : validate_package p with
    | error e => rw [validate_all, hp] at h; cases h
    | ok errs =>
      cases ht : validate_all rest with
      | error e => rw [validate_all, hp, ht] at h; cases h
      | ok tail =>
        rw [validate_all, hp, ht] at h
        simp only [exc_bind_ok, Except.ok.injEq] at h
        subst h
        rw [List.filterMap_cons]
        cases errs with
        | nil => simp [hp, ih tail ht]
        | cons a as => simp [hp, ih tail ht]

theorem strLe_total (a b : String) : strLe a b = true ∨ strLe b a = true := by
  unfold strLe
  generalize a.data = x
  generalize b.data = y
  induction x generalizing y with
  | nil => left; rfl
  | cons c cs ih =>
    cases y with
    | nil => right; rfl
    | cons d ds =>
      by_cases h1 : c.toNat < d.toNat
      · left; simp [charListLe, h1]
      · by_cases h2 : d.toNat < c.toNat
        · right; simp [charListLe, h2]
        · rcases ih ds with h | h
          · left; simp [charListLe, h1, h2, h]
          · right; simp [charListLe, h1, h2, h]

theorem insertSorted_perm (p : String × List String) (l : List (String × List String)) :
    (insertSorted p l).Perm (p :: l) := by
  induction l with
  | nil => exact List.Perm.refl _
  | cons q rest ih =>
    rw [insertSorted]
    by_cases hle : strLe p.1 q.1 = true
    · rw [if_pos hle]
    · rw [if_neg hle]
      exact (ih.cons q).trans (List.Perm.swap p q rest)

theorem sortResults_perm (l : List (String × List String)) : (sortResults l).Perm l := by
  induction l with
  | nil => exact List.Perm.refl _
  | cons p rest ih =>
    exact (insertSorted_perm p (sortResults rest)).trans (ih.cons p)

theorem insertSorted_chain (p : String × List String) (l : List (String × List String))
    (h : List.Chain' (fun a b => strLe a.1 b.1 = true) l) :
    List.Chain' (fun a b => strLe a.1 b.1 = true) (insertSorted p l) := by
  induction l with
  | nil => simp [insertSorted]
  | cons q rest ih =>
    rw [insertSorted]
    by_cases hle : strLe p.1 q.1 = true
    · rw [if_pos hle]
      exact List.Chain'.cons hle h
    · rw [if_neg hle]
      have hq : strLe q.1 p.1 = true := by
        rcases strLe_total p.1 q.1 with h' | h'
        · exact absurd h' hle
        · exact h'
      cases rest with
      | nil =>
        rw [insertSorted]
        exact List.Chain'.cons hq (List.chain'_singleton p)
      | cons r rs =>
        have hqr : strLe q.1 r.1 = true := (List.chain'_cons.mp h).1
        have hrest : List.Chain' (fun a b => strLe a.1 b.1 = true) (r :: rs) :=
          (List.chain'_cons.mp h).2
        have hins := ih hrest
        rw [insertSorted]
        by_cases h2 : strLe p.1 r.1 = true
        · rw [if_pos h2]
          exact List.Chain'.cons hq (List.Chain'.cons h2 hrest)
        · rw [if_neg h2]
          rw [insertSorted, if_neg h2] at hins
          exact List.Chain'.cons hqr hins

theorem sortResults_chain (l : List (String × List String)) :
    List.Chain' (fun a b => strLe a.1 b.1 = true) (sortResults l) := by
  induction l with
  | nil => exact List.chain'_nil
  | cons p rest ih => exact insertSorted_chain p (sortResults rest) ih

/-- C8: a successful `validate_all` run returns exactly the packages
with a non-empty error list (in registry order, zero-error packages
omitted), and the `--all` branch prints the name-sorted per-package
report with the `(Y-X)/Y packages valid` summary and exits 1 on any
failure, or the all-valid count and exits 0. -/
theorem claim_C8_validate_all (pkgs : List PackageDir)
    (results : List (String × List String)) (h : validate_all pkgs = Except.ok results) :
    results = pkgs.filterMap (fun p =>
      match validate_package p with
      | Except.ok [] => none
      | Except.ok errs => some (p.name, errs)
      | Except.error _ => none) ∧
    (sortResults results).Perm results ∧
    List.Chain' (fun a b => strLe a.1 b.1 = true) (sortResults results) ∧
    (results = [] → mainAll pkgs =
      Except.ok (["✅ All " ++ toString pkgs.length ++ " packages valid!"], 0)) ∧
    (results ≠ [] → mainAll pkgs =
      Except.ok ("❌ Validation errors found:\n" ::
        (reportLines (sortResults results) ++
         ["\n" ++ toString (pkgs.length - results.length) ++ "/" ++
          toString pkgs.length ++ " packages valid"]), 1)) := by
  refine ⟨validate_all_filterMap pkgs results h, sortResults_perm results,
    sortResults_chain results, fun he => ?_, fun hne => ?_⟩
  · subst he
    rw [mainAll, h]
    rfl
  · rw [mainAll, h]
    simp only [exc_bind_ok]
    rw [if_neg (by simpa [List.isEmpty_iff] using hne)]

set_option maxRecDepth 40000 in
/-- Witness for C8: two packages of which one fails; the report is
sorted, ends with `1/2 packages valid`, and the exit code is 1. -/
theorem claim_C8_witness :
    mainAll [fooPkg, pkgBadJson] = Except.ok
      ("❌ Validation errors found:\n" ::
        (reportLines (sortResults
          [("badjson", [invalidMetadataJsonMsg "Expecting value: line 1 column 1 (char 0)"])]) ++
         ["\n" ++ toString (([fooPkg, pkgBadJson] : List PackageDir).length -
            ([("badjson", [invalidMetadataJsonMsg "Expecting value: line 1 column 1 (char 0)"])] :
              List (String × List String)).length) ++ "/" ++
          toString (([fooPkg, pkgBadJson] : List PackageDir).length) ++ " packages valid"]), 1) :=
  (claim_C8_validate_all [fooPkg, pkgBadJson]
    [("badjson", [invalidMetadataJsonMsg "Expecting value: line 1 column 1 (char 0)"])]
    rfl).2.2.2.2 (by decide)

/-! ## No other message equals the directory/name mismatch message -/

theorem ne_mismatch_of_tag2_ne {e : String} (d s : String)
    (h : tag2 e ≠ (['D', 'i'] : List Char)) : e ≠ mismatchMsg d s := by
  intro he
  rw [he, tag2_mismatchMsg] at h
  exact h rfl

/-- C3 (amended): when all eight required fields are present and the
declared name is a string differing from the directory's base name,
the validator's output contains the directory/name mismatch error
exactly once, whatever the other fields and versions look like. -/
theorem claim_C3_mismatch_once (pkg : PackageDir) (kvs : List (String × Json)) (s : String)
    (errs : List String)
    (h1 : pkg.metadataJson = some (Except.ok (Json.obj kvs)))
    (h2 : ∀ f ∈ REQUIRED_METADATA_FIELDS, (lookupJson kvs f).isSome = true)
    (h3 : lookupJson kvs "name" = some (Json.str s))
    (h4 : pkg.name ≠ s)
    (h5 : validate_package pkg = Except.ok errs) :
    errs.count (mismatchMsg pkg.name s) = 1 := by
  have hcount0 : ∀ (l : List String), (∀ x ∈ l, x ≠ mismatchMsg pkg.name s) →
      l.count (mismatchMsg pkg.name s) = 0 := fun l hl =>
    List.count_eq_zero.mpr (fun hm => (hl _ hm) rfl)
  simp only [validate_package, h1] at h5
  cases hv : validate_metadata pkg.name (Json.obj kvs) with
  | error e => rw [hv] at h5; cases h5
  | ok merrs =>
  rw [hv] at h5
  simp only [exc_bind_ok] at h5
  obtain ⟨e1, e2, e3, e4, e5', e6, e7, hn, hdsc, hl, hr, htg, hmn, hdp, hmerrs⟩ :=
    validate_metadata_decomp pkg.name kvs merrs h2 hv
  have hc1 : e1.count (mismatchMsg pkg.name s) = 1 := by
    rw [nameChecks_obj pkg.name kvs s h3] at hn
    cases hn
    rw [if_neg h4]
    by_cases hp : namePatternMatch s = true
    · rw [if_pos hp]
      simp
    · rw [if_neg hp]
      have hne : invalidNameMsg s ≠ mismatchMsg pkg.name s :=
        ne_mismatch_of_tag2_ne _ _ (by rw [tag2_invalidNameMsg]; decide)
      simp [hne]
  have hc2 : e2.count (mismatchMsg pkg.name s) = 0 := by
    rcases descriptionCheck_shape _ _ hdsc with rfl | rfl
    · rfl
    · exact hcount0 _ (fun x hx => by
        rw [List.mem_singleton.mp hx]
        exact ne_mismatch_of_tag2_ne _ _ (by decide))
  have hc3 : e3.count (mismatchMsg pkg.name s) = 0 := by
    rcases licenseCheck_shape _ _ hl with rfl | ⟨x, rfl⟩
    · rfl
    · exact hcount0 _ (fun y hy => by
        rw [List.mem_singleton.mp hy]
        exact ne_mismatch_of_tag2_ne _ _ (by rw [tag2_licenseMsg]; decide))
  have hc4 : e4.count (mismatchMsg pkg.name s) = 0 := by
    rcases repositoryCheck_shape _ _ hr with rfl | rfl | ⟨x, rfl⟩
    · rfl
    · exact hcount0 _ (fun y hy => by
        rw [List.mem_singleton.mp hy]
        exact ne_mismatch_of_tag2_ne _ _ (by decide))
    · exact hcount0 _ (fun y hy => by
        rw [List.mem_singleton.mp hy]
        exact ne_mismatch_of_tag2_ne _ _ (by rw [tag2_repoTypeMsg]; decide))
  have hc5 : e5'.count (mismatchMsg pkg.name s) = 0 := by
    rcases targetsCheck_shape _ _ htg with rfl | rfl
    · rfl
    · exact hcount0 _ (fun y hy => by
        rw [List.mem_singleton.mp hy]
        exact ne_mismatch_of_tag2_ne _ _ (by decide))
  have hc6 : e6.count (mismatchMsg pkg.name s) = 0 := by
    rcases maintainersCheck_shape _ _ hmn with rfl | rfl
    · rfl
    · exact hcount0 _ (fun y hy => by
        rw [List.mem_singleton.mp hy]
        exact ne_mismatch_of_tag2_ne _ _ (by decide))
  have hc7 : e7.count (mismatchMsg pkg.name s) = 0 :=
    hcount0 _ (fun y hy => by
      rw [dependenciesCheck_mem _ _ hdp y hy]
      exact ne_mismatch_of_tag2_ne _ _ (by decide))
  have hcm : merrs.count (mismatchMsg pkg.name s) = 1 := by
    rw [hmerrs]
    simp only [List.count_append, hc1, hc2, hc3, hc4, hc5, hc6, hc7]
  cases hpe : pkg.versionDirs.isEmpty with
  | true =>
    rw [if_pos hpe] at h5
    have herrs : errs = merrs ++ [versionsRequiredMsg] := by
      cases h5
      rfl
    rw [herrs]
    have hcv : ([versionsRequiredMsg] : List String).count (mismatchMsg pkg.name s) = 0 :=
      hcount0 _ (fun y hy => by
        rw [List.mem_singleton.mp hy]
        exact ne_mismatch_of_tag2_ne _ _ (by decide))
    simp only [List.count_append, hcm, hcv]
  | false =>
    rw [if_neg (by simp [hpe])] at h5
    cases hpv : processVersions pkg.versionDirs with
    | error e => rw [hpv] at h5; cases h5
    | ok fv =>
    rw [hpv] at h5
    simp only [exc_bind_ok] at h5
    cases hdc : defaultVersionCheck (Json.obj kvs) fv.1 with
    | error e => rw [hdc] at h5; cases h5
    | ok derrs =>
    rw [hdc] at h5
    simp only [exc_bind_ok] at h5
    have herrs : errs = merrs ++ fv.2 ++ derrs := by
      cases h5
      rfl
    rw [herrs]
    have hcv : fv.2.count (mismatchMsg pkg.name s) = 0 :=
      hcount0 _ (fun y hy =>
        ne_mismatch_of_tag2_ne _ _ (by
          rw [processVersions_tag2 pkg.versionDirs fv.1 fv.2 (by rw [hpv]) y hy]
          decide))
    have hcd : derrs.count (mismatchMsg pkg.name s) = 0 := by
      rcases defaultVersionCheck_shape _ _ _ hdc with rfl | ⟨x, rfl⟩
      · rfl
      · exact hcount0 _ (fun y hy => by
          rw [List.mem_singleton.mp hy]
          exact ne_mismatch_of_tag2_ne _ _ (by rw [tag2_defaultVersionMsg]; decide))
    simp only [List.count_append, hcm, hcv, hcd]

/-- Counterexample to C3 as stated: with required fields missing, the
metadata validator stops before the directory/name comparison, so the
mismatch error appears zero times, not exactly once. -/
theorem claim_C3_counterexample :
    validate_package pkgBarMissingFields = Except.ok
      [missingFieldMsg "description", missingFieldMsg "homepage", missingFieldMsg "license",
       missingFieldMsg "repository", missingFieldMsg "default_version",
       missingFieldMsg "targets", missingFieldMsg "maintainers", versionsRequiredMsg] ∧
    ([missingFieldMsg "description", missingFieldMsg "homepage", missingFieldMsg "license",
      missingFieldMsg "repository", missingFieldMsg "default_version",
      missingFieldMsg "targets", missingFieldMsg "maintainers",
      versionsRequiredMsg] : List String).count (mismatchMsg "bar" "foo") = 0 :=
  ⟨rfl, by decide⟩

set_option maxRecDepth 40000 in
/-- Witness for the amended C3: directory `bar`, declared name `foo`,
all other fields valid: exactly one mismatch error. -/
theorem claim_C3_witness :
    ([mismatchMsg "bar" "foo"] : List String).count (mismatchMsg "bar" "foo") = 1 :=
  claim_C3_mismatch_once pkgBarNamedFoo fooMetaKvs "foo" [mismatchMsg "bar" "foo"]
    rfl (by decide) rfl (by decide) rfl

end CCR
